import Mathlib

/-!
Shallow embedding of the inventory-aggregation core of the Crop_Status
repository (`src/crop_inventory/inventory_utils.py`), together with proofs
of the specification claims about it.

Modelling conventions:
* A CSV cell (`Cell`) is either entirely absent from the file's columns
  (`Cell.absent`), present but null/NaN (`Cell.nan`), or a string value
  (`Cell.val s`).  `pandas.Series.get` with a default returns the default
  only when the column is absent; a NaN value flows through, which is why
  the two "missing" cases must be kept apart.
* A Python value reaching the row-processing code (`PyVal`) is either the
  float NaN (`PyVal.vnan`) or a string (`PyVal.vstr s`).  NaN is *truthy*
  in Python and `pd.isna` is the only way the code detects it.
* Rows never raise in this universe of string-valued cells: every
  `try/except` in the per-row body either guards an `int`/`strptime`
  parse (modelled by `Option`-returning parsers) or is unreachable, so
  the per-row error counter of the script can only stay at zero and the
  per-row processing function is total.
* `defaultdict` access is modelled by a total function from keys to
  aggregates whose default is the empty aggregate.
-/

/-- A raw CSV cell: absent column, NaN value, or a string value. -/
inductive Cell where
  | absent : Cell
  | nan : Cell
  | val : String → Cell
deriving DecidableEq

/-- A Python runtime value produced by `row.get(...)`: NaN or a string. -/
inductive PyVal where
  | vnan : PyVal
  | vstr : String → PyVal
deriving DecidableEq

/-- `row.get(col, default)`: the default only replaces an absent column;
a NaN value flows through unchanged. -/
def Cell.get (c : Cell) (default : String) : PyVal :=
  match c with
  | Cell.absent => PyVal.vstr default
  | Cell.nan => PyVal.vnan
  | Cell.val s => PyVal.vstr s

/-- `pd.isna(row.get(col))` with no default: true for an absent column
(`row.get` returns `None`) and for a NaN value. -/
def Cell.isnaRaw (c : Cell) : Bool :=
  match c with
  | Cell.absent => true
  | Cell.nan => true
  | Cell.val _ => false

/-- Python truthiness of a value: NaN is truthy, a string is truthy iff
it is non-empty. -/
def PyVal.truthy (v : PyVal) : Bool :=
  match v with
  | PyVal.vnan => true
  | PyVal.vstr s => s ≠ ""

/-- One row of a crop-data CSV file, restricted to the columns the
aggregation code reads (`inventory_utils.py`, lines 53-166). -/
structure Row where
  country_code : Cell
  product : Cell
  cpcv2_description : Cell
  season_year : Cell
  start_date : Cell
  period_date : Cell
  harvest_end_date : Cell
  season_name : Cell
  season_type : Cell
  admin_4 : Cell
  admin_3 : Cell
  admin_2 : Cell
  admin_1 : Cell
  admin_0 : Cell
  geographic_unit_name : Cell
  indicator : Cell
  indicator_group : Cell
  source_organization : Cell
  source_document : Cell
deriving DecidableEq

/-- The four availability booleans computed for one row
(`inventory_utils.py`, lines 115-141). -/
structure Flags where
  area_planted : Bool
  area_harvested : Bool
  quantity_produced : Bool
  production : Bool
deriving DecidableEq

/-- One `(country_code, crop)` aggregate of the inventory
(`inventory_utils.py`, lines 15-25).  `regions` holds `PyVal`s because a
present-but-NaN `geographic_unit_name` makes the code add NaN to the set. -/
structure Agg where
  years : Finset Int
  seasonality : Finset String
  area_planted : Bool
  area_harvested : Bool
  quantity_produced : Bool
  production : Bool
  regions : Finset PyVal
  data_sources : Finset String
  indicators : Finset String
deriving DecidableEq

/-- The fresh aggregate a `defaultdict` lookup creates. -/
def emptyAgg : Agg :=
  { years := ∅
    seasonality := ∅
    area_planted := false
    area_harvested := false
    quantity_produced := false
    production := false
    regions := ∅
    data_sources := ∅
    indicators := ∅ }

/-! ### String and number parsing helpers -/

/-- Case-sensitive substring test at the character level: Python's
`needle in hay`.  (All string work is done on `List Char` by structural
recursion, so every definition reduces inside the kernel.) -/
def listContainsSub (hay needle : List Char) : Bool :=
  match hay with
  | [] => needle.isEmpty
  | _ :: t => needle.isPrefixOf hay || listContainsSub t needle

/-- Python `s.lower()` restricted to ASCII letters, as a character list. -/
def lowerData (s : String) : List Char :=
  s.data.map Char.toLower

/-- Python `kw in text` on a lowered text. -/
def containsKw (l : List Char) (kw : String) : Bool :=
  listContainsSub l kw.data

/-- A non-empty all-ASCII-digit character list. -/
def isDigits (l : List Char) : Bool :=
  !l.isEmpty && l.all Char.isDigit

/-- Numeric value of a digit list. -/
def digitsVal (l : List Char) : Nat :=
  l.foldl (fun n c => n * 10 + (c.toNat - 48)) 0

/-- Python `str.strip()`: drop whitespace from both ends. -/
def stripChars (l : List Char) : List Char :=
  ((l.dropWhile Char.isWhitespace).reverse.dropWhile Char.isWhitespace).reverse

/-- Python `int(s)` on a string: optional surrounding whitespace, optional
sign, then decimal digits; anything else raises (here: `none`). -/
def pyInt (s : String) : Option Int :=
  match stripChars s.data with
  | '-' :: ds => if isDigits ds then some (-(digitsVal ds : Int)) else none
  | '+' :: ds => if isDigits ds then some ((digitsVal ds : Int)) else none
  | ds => if isDigits ds then some ((digitsVal ds : Int)) else none

/-- Split a character list on a separator character (the separators used
by the date formats are `-` and `/`). -/
def splitOnChar (l : List Char) (sep : Char) : List (List Char) :=
  match l with
  | [] => [[]]
  | c :: cs =>
    if c = sep then [] :: splitOnChar cs sep
    else
      match splitOnChar cs sep with
      | [] => [[c]]
      | p :: ps => (c :: p) :: ps

/-! ### Date parsing (`datetime.strptime`, restricted to the four format
strings tried by the code: `%Y-%m-%d`, `%m/%d/%Y`, `%d/%m/%Y`, `%Y`). -/

/-- The four date formats of `inventory_utils.py`, line 82, in order. -/
inductive DateFmt where
  | ymd : DateFmt
  | mdy : DateFmt
  | dmy : DateFmt
  | yOnly : DateFmt
deriving DecidableEq

/-- Format order as in the source: `['%Y-%m-%d', '%m/%d/%Y', '%d/%m/%Y', '%Y']`. -/
def fmtOrder : List DateFmt :=
  [DateFmt.ymd, DateFmt.mdy, DateFmt.dmy, DateFmt.yOnly]

/-- `%Y` in CPython's `_strptime` matches exactly four digits. -/
def parseY (l : List Char) : Option Nat :=
  if l.length = 4 && isDigits l then some (digitsVal l) else none

/-- `%m` / `%d` match one or two digits whose value lies in `1..hi`
(`hi = 12` for months, `hi = 31` for days). -/
def parseMD (hi : Nat) (l : List Char) : Option Nat :=
  if isDigits l && l.length ≤ 2 then
    let v := digitsVal l
    if 1 ≤ v && v ≤ hi then some v else none
  else none

/-- Days in a month with the Gregorian leap rule, as `datetime` validates. -/
def daysInMonth (y m : Nat) : Nat :=
  if m = 2 then
    (if (y % 4 = 0 && y % 100 ≠ 0) || y % 400 = 0 then 29 else 28)
  else if m = 4 || m = 6 || m = 9 || m = 11 then 30 else 31

/-- `datetime(year, month, day)` construction: year at least `MINYEAR = 1`
and the day valid for the month; on success the year of the date. -/
def mkDateYear (y m d : Nat) : Option Nat :=
  if 1 ≤ y && 1 ≤ d && d ≤ daysInMonth y m then some y else none

/-- Year of `datetime.strptime(s, fmt)` for the four formats used, `none`
when strptime raises.  Strptime requires the whole string to match. -/
def pyStrptimeYear (s : String) : DateFmt → Option Nat
  | DateFmt.ymd =>
    match splitOnChar s.data '-' with
    | [ys, ms, ds] =>
      match parseY ys, parseMD 12 ms, parseMD 31 ds with
      | some y, some m, some d => mkDateYear y m d
      | _, _, _ => none
    | _ => none
  | DateFmt.mdy =>
    match splitOnChar s.data '/' with
    | [ms, ds, ys] =>
      match parseY ys, parseMD 12 ms, parseMD 31 ds with
      | some y, some m, some d => mkDateYear y m d
      | _, _, _ => none
    | _ => none
  | DateFmt.dmy =>
    match splitOnChar s.data '/' with
    | [ds, ms, ys] =>
      match parseY ys, parseMD 12 ms, parseMD 31 ds with
      | some y, some m, some d => mkDateYear y m d
      | _, _, _ => none
    | _ => none
  | DateFmt.yOnly =>
    match parseY s.data with
    | some y => if 1 ≤ y then some y else none
    | none => none

/-- The inner format loop (`inventory_utils.py`, lines 82-88): try each
format in order, keep the first success, `continue` on failure. -/
def scanFormats (s : String) : List DateFmt → Option Nat
  | [] => none
  | f :: fs =>
    match pyStrptimeYear s f with
    | some y => some y
    | none => scanFormats s fs

/-- The outer date-field loop (`inventory_utils.py`, lines 76-92): skip
NaN/absent fields, run the format loop on present ones, and `break` as
soon as the mutable `year` is truthy. -/
def scanDateFields (year : Option Nat) : List Cell → Option Nat
  | [] => year
  | c :: cs =>
    match c with
    | Cell.val s =>
      let year2 :=
        match scanFormats s fmtOrder with
        | some y => some y
        | none => year
      match year2 with
      | some y => if y ≠ 0 then year2 else scanDateFields year2 cs
      | none => scanDateFields year2 cs
    | _ => scanDateFields year cs

/-! ### Field extraction (`inventory_utils.py`, lines 53-148) -/

/-- The repeated two-level fallback of the source: `row.get(a, '')`, and if
that is NaN or falsy then `row.get(b, default)`, and if that is NaN then
the default (used for crop, season and source). -/
def getWithFallback (c1 c2 : Cell) (default : String) : String :=
  match c1.get "" with
  | PyVal.vstr s =>
    if s ≠ "" then s
    else
      match c2 with
      | Cell.val s2 => s2
      | _ => default
  | PyVal.vnan =>
    match c2 with
    | Cell.val s2 => s2
    | _ => default

/-- Crop name: `product` → `cpcv2_description` → `'Unknown Crop'`
(lines 61-65). -/
def extractCrop (r : Row) : String :=
  getWithFallback r.product r.cpcv2_description "Unknown Crop"

/-- Season: `season_name` → `season_type` → `'Annual'` (lines 95-99). -/
def extractSeason (r : Row) : String :=
  getWithFallback r.season_name r.season_type "Annual"

/-- Source: `source_organization` → `source_document` → `'Unknown'`
(lines 144-148). -/
def extractSource (r : Row) : String :=
  getWithFallback r.source_organization r.source_document "Unknown"

/-- The admin-level loop (lines 103-106): the first admin cell that is
neither absent nor NaN nor the empty string. -/
def findAdminRegion : List Cell → Option String
  | [] => none
  | c :: cs =>
    match c with
    | Cell.val s => if s ≠ "" then some s else findAdminRegion cs
    | _ => findAdminRegion cs

/-- Region extraction exactly as the source does it (lines 102-108): the
admin loop, then `row.get('geographic_unit_name', 'National')` with *no*
isna or emptiness check on that value. -/
def extractRegion (r : Row) : PyVal :=
  match findAdminRegion [r.admin_4, r.admin_3, r.admin_2, r.admin_1, r.admin_0] with
  | some s => PyVal.vstr s
  | none => r.geographic_unit_name.get "National"

/-- Year extraction (lines 69-92): if `season_year` is non-missing, try
`int` on it; only when that raises does the date-field scan run.  A
missing `season_year` leaves the year `None` without any date scan. -/
def extractYear (r : Row) : Option Int :=
  match r.season_year with
  | Cell.val s =>
    match pyInt s with
    | some y => some y
    | none =>
      (scanDateFields none [r.start_date, r.period_date, r.harvest_end_date]).map
        Int.ofNat
  | _ => none

/-- The row classifier (lines 114-141): keyword rules on the indicator
text, then the indicator-group fallback when all four flags are false and
the group is not NaN.  Inside the fallback the flags are still false, so
each Python `if kw in group: flag = True` is `flag || test`. -/
def classifyIndicators (ind grp : PyVal) : Flags :=
  let f : Flags :=
    match ind with
    | PyVal.vnan =>
      { area_planted := false
        area_harvested := false
        quantity_produced := false
        production := false }
    | PyVal.vstr s =>
      let l := lowerData s
      { area_planted :=
          containsKw l "planted" || containsKw l "planting" || containsKw l "area planted"
        area_harvested :=
          containsKw l "harvested" || containsKw l "harvesting" || containsKw l "area harvested"
        quantity_produced :=
          containsKw l "quantity" || containsKw l "volume" || containsKw l "output"
        production :=
          containsKw l "yield" || containsKw l "production" }
  if !(f.area_planted || f.area_harvested || f.quantity_produced || f.production) then
    match grp with
    | PyVal.vnan => f
    | PyVal.vstr g =>
      let gl := lowerData g
      { area_planted := f.area_planted || containsKw gl "area"
        area_harvested := f.area_harvested || containsKw gl "area"
        quantity_produced :=
          f.quantity_produced || containsKw gl "quantity" || containsKw gl "yield"
        production := f.production || containsKw gl "production" }
  else f

/-- The classifier as invoked on a row: both texts fetched with the empty
default (lines 111-112). -/
def rowFlags (r : Row) : Flags :=
  classifyIndicators (r.indicator.get "") (r.indicator_group.get "")

/-! ### Aggregation (`inventory_utils.py`, lines 150-166) -/

/-- `if year: inventory[...]['years'].add(year)` — the guard is Python
truthiness of the `Option Int` year, so `None` and `0` both skip. -/
def yearsUpd (y : Option Int) (s : Finset Int) : Finset Int :=
  match y with
  | some v => if v ≠ 0 then insert v s else s
  | none => s

/-- `if region: inventory[...]['regions'].add(region)` — NaN is truthy. -/
def regionsUpd (v : PyVal) (s : Finset PyVal) : Finset PyVal :=
  if v.truthy then insert v s else s

/-- `if not pd.isna(indicator): inventory[...]['indicators'].add(indicator)`
where `indicator = row.get('indicator', '')`: an absent column adds `''`. -/
def indicatorsUpd (v : PyVal) (s : Finset String) : Finset String :=
  match v with
  | PyVal.vstr t => insert t s
  | PyVal.vnan => s

/-- One row's read-modify-write on its `(country_code, crop)` aggregate
(lines 150-166). -/
def applyRow (r : Row) (a : Agg) : Agg :=
  { years := yearsUpd (extractYear r) a.years
    seasonality := insert (extractSeason r) a.seasonality
    area_planted := a.area_planted || (rowFlags r).area_planted
    area_harvested := a.area_harvested || (rowFlags r).area_harvested
    quantity_produced := a.quantity_produced || (rowFlags r).quantity_produced
    production := a.production || (rowFlags r).production
    regions := regionsUpd (extractRegion r) a.regions
    data_sources := insert (extractSource r) a.data_sources
    indicators := indicatorsUpd (r.indicator.get "") a.indicators }

/-- The nested `defaultdict` inventory, as a total function with the empty
aggregate as default. -/
def InvMap : Type := String → String → Agg

/-- The all-default inventory the run starts from. -/
def emptyInv : InvMap := fun _ _ => emptyAgg

/-- Point update of the nested map at key `(c, cr)`. -/
def updInv (inv : InvMap) (c cr : String) (f : Agg → Agg) : InvMap :=
  fun c' cr' => if c' = c ∧ cr' = cr then f (inv c cr) else inv c' cr'

/-- Processing of one row (lines 52-166): skip when `country_code` is
absent or NaN (`continue` at line 56), otherwise update the aggregate at
`(country_code, crop)`. -/
def processRow (inv : InvMap) (r : Row) : InvMap :=
  match r.country_code with
  | Cell.val c => updInv inv c (extractCrop r) (applyRow r)
  | Cell.nan => inv
  | Cell.absent => inv

/-- The whole-run inventory over a flat list of rows. -/
def runRows (rows : List Row) : InvMap :=
  rows.foldl processRow emptyInv

/-! ### Run state: counters and the per-file loop -/

/-- Run statistics tracked alongside the inventory (lines 27-31; the
country/crop sets are not needed by any claim). -/
structure RunState where
  inventory : InvMap
  error_count : Nat
  file_count : Nat
  row_count : Nat

/-- Initial run state. -/
def initState : RunState :=
  { inventory := emptyInv, error_count := 0, file_count := 0, row_count := 0 }

/-- Row processing at the state level.  With string-valued cells no row
raises, so the per-row `except` (lines 167-169) never fires and the error
counter is untouched by rows. -/
def processRowState (s : RunState) (r : Row) : RunState :=
  { s with inventory := processRow s.inventory r }

/-- One candidate file: `none` when `pd.read_csv` raises, `some rows`
when it parses.  A failed file hits the outer `except` (lines 176-177)
which only logs — no counter of any kind is incremented.  A parsed file
adds its length to `row_count`, folds its rows, and bumps `file_count`. -/
def processFile (s : RunState) (f : Option (List Row)) : RunState :=
  match f with
  | none => s
  | some rows =>
    let s1 : RunState := { s with row_count := s.row_count + rows.length }
    let s2 := rows.foldl processRowState s1
    { s2 with file_count := s2.file_count + 1 }

/-- The full scan over the candidate files found by the directory walk. -/
def runFiles (files : List (Option (List Row))) : RunState :=
  files.foldl processFile initState

/-- The multiset of rows the scan actually aggregates: rows of the
parseable files, in scan order. -/
def joinRows (files : List (Option (List Row))) : List Row :=
  (files.filterMap id).flatten

/-! ### Summary projection (`inventory_utils.py`, lines 229-234) -/

/-- Python `bool` used as a number in `sum([...])`. -/
def boolVal (b : Bool) : ℚ :=
  if b then 1 else 0

/-- The `completeness` field of a summary record:
`sum([ap, ah, qp, prod]) / 4.0 * 100`. -/
def summaryCompleteness (info : Agg) : ℚ :=
  (boolVal info.area_planted + boolVal info.area_harvested +
    boolVal info.quantity_produced + boolVal info.production) / 4 * 100

/-- Number of the four availability booleans that are true. -/
def countTrueFlags (info : Agg) : Nat :=
  info.area_planted.toNat + info.area_harvested.toNat +
    info.quantity_produced.toNat + info.production.toNat

/-! ### Specification-side definitions

These are written from the claims' words (not from the source) and are
used only to compare the source-derived functions against the spec. -/

/-- Flags obtained from the indicator text alone, per the spec's keyword
rules (spec §4.2, first block). -/
def flagsFromIndicatorText (s : String) : Flags :=
  let l := lowerData s
  { area_planted :=
      containsKw l "planted" || containsKw l "planting" || containsKw l "area planted"
    area_harvested :=
      containsKw l "harvested" || containsKw l "harvesting" || containsKw l "area harvested"
    quantity_produced :=
      containsKw l "quantity" || containsKw l "volume" || containsKw l "output"
    production :=
      containsKw l "yield" || containsKw l "production" }

/-- Flags obtained from the indicator-group text alone, per the spec's
fallback rules. -/
def flagsFromGroupText (g : String) : Flags :=
  let gl := lowerData g
  { area_planted := containsKw gl "area"
    area_harvested := containsKw gl "area"
    quantity_produced := containsKw gl "quantity" || containsKw gl "yield"
    production := containsKw gl "production" }

/-- The all-false flag tuple. -/
def noFlags : Flags :=
  { area_planted := false
    area_harvested := false
    quantity_produced := false
    production := false }

/-- The Row Classifier exactly as the claim words it: substring rules on
the indicator text first; if the text is missing or all four come out
false, fall back to the indicator-group text; if both are missing or
inconclusive, all four stay false. -/
def classifyRowSpec (ind grp : PyVal) : Flags :=
  let primary :=
    match ind with
    | PyVal.vnan => noFlags
    | PyVal.vstr s => flagsFromIndicatorText s
  if primary = noFlags then
    match grp with
    | PyVal.vnan => noFlags
    | PyVal.vstr g => flagsFromGroupText g
  else primary

/-- First present, non-missing, non-empty value in a list of cells (the
claim's description of the admin-level scan). -/
def firstNonMissingNonEmpty (cs : List Cell) : Option String :=
  cs.findSome? fun c =>
    match c with
    | Cell.val s => if s ≠ "" then some s else none
    | _ => none

/-- Region extraction exactly as claim C6 words it: deepest admin level
first, then `geographic_unit_name` when present, non-missing and
non-empty, otherwise the literal `"National"`. -/
def extractRegionClaim (r : Row) : PyVal :=
  match firstNonMissingNonEmpty
      [r.admin_4, r.admin_3, r.admin_2, r.admin_1, r.admin_0] with
  | some s => PyVal.vstr s
  | none =>
    match r.geographic_unit_name with
    | Cell.val s => if s ≠ "" then PyVal.vstr s else PyVal.vstr "National"
    | _ => PyVal.vstr "National"

/-- Region extraction as amended: after the admin scan fails, the
`geographic_unit_name` cell's value is used whenever the column is
present — a NaN value yields a NaN region and an empty string yields an
empty region — and the literal `"National"` only when the column is
entirely absent. -/
def extractRegionAmended (r : Row) : PyVal :=
  match firstNonMissingNonEmpty
      [r.admin_4, r.admin_3, r.admin_2, r.admin_1, r.admin_0] with
  | some s => PyVal.vstr s
  | none =>
    match r.geographic_unit_name with
    | Cell.absent => PyVal.vstr "National"
    | Cell.nan => PyVal.vnan
    | Cell.val s => PyVal.vstr s

/-- Year extraction as amended: `season_year` parsed as an integer when
present; the date-field scan (fields in order, formats in order, first
success wins) runs only when `season_year` is present but fails the
integer parse; a missing `season_year` yields an unknown year with no
date scan at all. -/
def extractYearAmended (r : Row) : Option Int :=
  match r.season_year with
  | Cell.val s =>
    match pyInt s with
    | some y => some y
    | none =>
      (([r.start_date, r.period_date, r.harvest_end_date].findSome? fun c =>
          match c with
          | Cell.val ds => fmtOrder.findSome? (pyStrptimeYear ds)
          | _ => (none : Option Nat))).map Int.ofNat
  | _ => none

/-! ### Concrete rows used by witnesses and counterexamples -/

/-- A row with every column absent. -/
def blankRow : Row :=
  { country_code := Cell.absent
    product := Cell.absent
    cpcv2_description := Cell.absent
    season_year := Cell.absent
    start_date := Cell.absent
    period_date := Cell.absent
    harvest_end_date := Cell.absent
    season_name := Cell.absent
    season_type := Cell.absent
    admin_4 := Cell.absent
    admin_3 := Cell.absent
    admin_2 := Cell.absent
    admin_1 := Cell.absent
    admin_0 := Cell.absent
    geographic_unit_name := Cell.absent
    indicator := Cell.absent
    indicator_group := Cell.absent
    source_organization := Cell.absent
    source_document := Cell.absent }

/-- A Kenyan maize row carrying an `Area Harvested` indicator for 2019. -/
def rowHarvested : Row :=
  { blankRow with
    country_code := Cell.val "KE"
    product := Cell.val "Maize"
    season_year := Cell.val "2019"
    indicator := Cell.val "Area Harvested" }

/-- A Kenyan maize row carrying a `Production` indicator for 2020. -/
def rowProduced : Row :=
  { blankRow with
    country_code := Cell.val "KE"
    product := Cell.val "Maize"
    season_year := Cell.val "2020"
    indicator := Cell.val "Production" }

/-- A row whose `season_year` is NaN while `start_date` holds a perfectly
parseable ISO date: the claimed date fallback would find 2018 here, the
code does not run it. -/
def rowYearNan : Row :=
  { blankRow with
    country_code := Cell.val "KE"
    product := Cell.val "Maize"
    season_year := Cell.nan
    start_date := Cell.val "2018-05-01" }

/-- A row whose admin levels are all missing and whose
`geographic_unit_name` column is present but NaN. -/
def rowGeoNan : Row :=
  { blankRow with
    country_code := Cell.val "KE"
    product := Cell.val "Maize"
    geographic_unit_name := Cell.nan }

/-- A row with a country but with every year-related field absent. -/
def rowNoYear : Row :=
  { blankRow with
    country_code := Cell.val "KE"
    product := Cell.val "Maize"
    season_name := Cell.val "Long rains"
    source_organization := Cell.val "FAO" }

/-- A row with no country code at all. -/
def rowNoCountry : Row :=
  { blankRow with
    product := Cell.val "Maize"
    season_year := Cell.val "2019" }

/-! ### Commutation lemmas: one row's contribution commutes with another's -/

lemma bool_or_right_comm (a b c : Bool) : ((a || b) || c) = ((a || c) || b) := by
  cases a <;> cases b <;> cases c <;> rfl

lemma yearsUpd_comm (y1 y2 : Option Int) (s : Finset Int) :
    yearsUpd y1 (yearsUpd y2 s) = yearsUpd y2 (yearsUpd y1 s) := by
  cases y1 <;> cases y2 <;> simp only [yearsUpd] <;>
    (try split_ifs) <;> simp [Finset.Insert.comm]

lemma regionsUpd_comm (v1 v2 : PyVal) (s : Finset PyVal) :
    regionsUpd v1 (regionsUpd v2 s) = regionsUpd v2 (regionsUpd v1 s) := by
  simp only [regionsUpd]
  split_ifs <;> simp [Finset.Insert.comm]

lemma indicatorsUpd_comm (v1 v2 : PyVal) (s : Finset String) :
    indicatorsUpd v1 (indicatorsUpd v2 s) = indicatorsUpd v2 (indicatorsUpd v1 s) := by
  cases v1 <;> cases v2 <;> simp [indicatorsUpd, Finset.Insert.comm]

lemma applyRow_comm (r1 r2 : Row) (a : Agg) :
    applyRow r1 (applyRow r2 a) = applyRow r2 (applyRow r1 a) := by
  simp only [applyRow, Agg.mk.injEq]
  refine ⟨?_, ?_, ?_, ?_, ?_, ?_, ?_, ?_, ?_⟩
  · exact yearsUpd_comm _ _ _
  · exact Finset.Insert.comm _ _ _
  · exact bool_or_right_comm _ _ _
  · exact bool_or_right_comm _ _ _
  · exact bool_or_right_comm _ _ _
  · exact bool_or_right_comm _ _ _
  · exact regionsUpd_comm _ _ _
  · exact Finset.Insert.comm _ _ _
  · exact indicatorsUpd_comm _ _ _

lemma updInv_comm (inv : InvMap) (c1 cr1 c2 cr2 : String) (f g : Agg → Agg)
    (hfg : ∀ a, f (g a) = g (f a)) :
    updInv (updInv inv c1 cr1 f) c2 cr2 g = updInv (updInv inv c2 cr2 g) c1 cr1 f := by
  funext c' cr'
  simp only [updInv]
  by_cases h1 : c' = c1 ∧ cr' = cr1 <;> by_cases h2 : c' = c2 ∧ cr' = cr2
  · obtain ⟨rfl, rfl⟩ := h1
    obtain ⟨rfl, rfl⟩ := h2
    simp [hfg]
  · obtain ⟨rfl, rfl⟩ := h1
    simp [h2]
  · obtain ⟨rfl, rfl⟩ := h2
    simp [h1]
  · simp [h1, h2]

lemma processRow_comm (inv : InvMap) (r1 r2 : Row) :
    processRow (processRow inv r1) r2 = processRow (processRow inv r2) r1 := by
  cases h1 : r1.country_code <;> cases h2 : r2.country_code <;>
    simp only [processRow, h1, h2]
  exact updInv_comm _ _ _ _ _ _ _ (fun a => applyRow_comm r1 r2 a)

lemma foldl_processRow_perm {l1 l2 : List Row} (h : l1.Perm l2) :
    ∀ inv : InvMap, l1.foldl processRow inv = l2.foldl processRow inv := by
  induction h with
  | nil => intro inv; rfl
  | cons x _ ih =>
    intro inv
    simp only [List.foldl_cons]
    exact ih (processRow inv x)
  | swap x y l =>
    intro inv
    simp only [List.foldl_cons]
    rw [processRow_comm]
  | trans _ _ ih1 ih2 =>
    intro inv
    rw [ih1 inv, ih2 inv]

/-! ### The state-level run projects onto the pure row fold -/

lemma foldl_state_inventory (rows : List Row) :
    ∀ s : RunState,
      (rows.foldl processRowState s).inventory = rows.foldl processRow s.inventory := by
  induction rows with
  | nil => intro s; rfl
  | cons r rs ih =>
    intro s
    simp only [List.foldl_cons]
    rw [ih]
    rfl

lemma processFile_some_inventory (s : RunState) (rows : List Row) :
    (processFile s (some rows)).inventory = rows.foldl processRow s.inventory := by
  show (rows.foldl processRowState { s with row_count := s.row_count + rows.length }).inventory = _
  rw [foldl_state_inventory]

lemma runFilesFrom_inventory (files : List (Option (List Row))) :
    ∀ s : RunState,
      (files.foldl processFile s).inventory = (joinRows files).foldl processRow s.inventory := by
  induction files with
  | nil => intro s; rfl
  | cons f fs ih =>
    intro s
    cases f with
    | none =>
      simp only [List.foldl_cons]
      rw [ih]
      rfl
    | some rows =>
      simp only [List.foldl_cons]
      rw [ih]
      have h1 : joinRows (some rows :: fs) = rows ++ joinRows fs := by
        simp [joinRows]
      rw [h1, List.foldl_append, processFile_some_inventory]

/-! ### Growth: a row only ever enlarges an aggregate -/

/-- Pointwise growth order on aggregates: all five sets grow and the four
booleans never fall back from `true`. -/
def AggLE (a b : Agg) : Prop :=
  a.years ⊆ b.years ∧ a.seasonality ⊆ b.seasonality ∧ a.regions ⊆ b.regions ∧
    a.data_sources ⊆ b.data_sources ∧ a.indicators ⊆ b.indicators ∧
    (a.area_planted = true → b.area_planted = true) ∧
    (a.area_harvested = true → b.area_harvested = true) ∧
    (a.quantity_produced = true → b.quantity_produced = true) ∧
    (a.production = true → b.production = true)

lemma aggLE_refl (a : Agg) : AggLE a a :=
  ⟨Finset.Subset.refl _, Finset.Subset.refl _, Finset.Subset.refl _,
    Finset.Subset.refl _, Finset.Subset.refl _, id, id, id, id⟩

lemma aggLE_trans {a b c : Agg} (h1 : AggLE a b) (h2 : AggLE b c) : AggLE a c := by
  obtain ⟨s1, s2, s3, s4, s5, b1, b2, b3, b4⟩ := h1
  obtain ⟨t1, t2, t3, t4, t5, c1, c2, c3, c4⟩ := h2
  exact ⟨s1.trans t1, s2.trans t2, s3.trans t3, s4.trans t4, s5.trans t5,
    fun h => c1 (b1 h), fun h => c2 (b2 h), fun h => c3 (b3 h), fun h => c4 (b4 h)⟩

lemma yearsUpd_subset (y : Option Int) (s : Finset Int) : s ⊆ yearsUpd y s := by
  cases y with
  | none => exact Finset.Subset.refl _
  | some v =>
    simp only [yearsUpd]
    split_ifs
    · exact Finset.subset_insert _ _
    · exact Finset.Subset.refl _

lemma regionsUpd_subset (v : PyVal) (s : Finset PyVal) : s ⊆ regionsUpd v s := by
  simp only [regionsUpd]
  split_ifs
  · exact Finset.subset_insert _ _
  · exact Finset.Subset.refl _

lemma indicatorsUpd_subset (v : PyVal) (s : Finset String) : s ⊆ indicatorsUpd v s := by
  cases v with
  | vnan => exact Finset.Subset.refl _
  | vstr t => exact Finset.subset_insert _ _

lemma applyRow_le (r : Row) (a : Agg) : AggLE a (applyRow r a) := by
  refine ⟨yearsUpd_subset _ _, Finset.subset_insert _ _, regionsUpd_subset _ _,
    Finset.subset_insert _ _, indicatorsUpd_subset _ _, ?_, ?_, ?_, ?_⟩ <;>
    · intro h
      simp [applyRow, h]

lemma processRow_le (inv : InvMap) (r : Row) (c cr : String) :
    AggLE (inv c cr) ((processRow inv r) c cr) := by
  cases h : r.country_code with
  | absent => simp only [processRow, h]; exact aggLE_refl _
  | nan => simp only [processRow, h]; exact aggLE_refl _
  | val c0 =>
    simp only [processRow, h, updInv]
    by_cases hk : c = c0 ∧ cr = extractCrop r
    · obtain ⟨rfl, rfl⟩ := hk
      simp only [and_self, if_true, if_pos]
      exact applyRow_le r _
    · simp only [hk, if_false, if_neg hk]
      exact aggLE_refl _

lemma foldl_processRow_le (rows : List Row) :
    ∀ (inv : InvMap) (c cr : String),
      AggLE (inv c cr) ((rows.foldl processRow inv) c cr) := by
  induction rows with
  | nil => intro inv c cr; exact aggLE_refl _
  | cons r rs ih =>
    intro inv c cr
    exact aggLE_trans (processRow_le inv r c cr) (ih (processRow inv r) c cr)

lemma mem_seasonality_foldl {x : String} (rows : List Row) (inv : InvMap) (c cr : String)
    (h : x ∈ (inv c cr).seasonality) :
    x ∈ ((rows.foldl processRow inv) c cr).seasonality :=
  (foldl_processRow_le rows inv c cr).2.1 h

lemma mem_data_sources_foldl {x : String} (rows : List Row) (inv : InvMap) (c cr : String)
    (h : x ∈ (inv c cr).data_sources) :
    x ∈ ((rows.foldl processRow inv) c cr).data_sources :=
  (foldl_processRow_le rows inv c cr).2.2.2.1 h

lemma processRow_self (inv : InvMap) (r : Row) (c : String)
    (hc : r.country_code = Cell.val c) :
    (processRow inv r) c (extractCrop r) = applyRow r (inv c (extractCrop r)) := by
  simp [processRow, hc, updInv]

lemma mem_after_runRowsFrom (rows : List Row) :
    ∀ (inv : InvMap) (r : Row) (c : String), r ∈ rows → r.country_code = Cell.val c →
      extractSeason r ∈ ((rows.foldl processRow inv) c (extractCrop r)).seasonality ∧
      extractSource r ∈ ((rows.foldl processRow inv) c (extractCrop r)).data_sources := by
  induction rows with
  | nil =>
    intro inv r c hmem
    exact absurd hmem (List.not_mem_nil r)
  | cons r0 rs ih =>
    intro inv r c hmem hc
    simp only [List.foldl_cons]
    rcases List.mem_cons.mp hmem with rfl | hmem2
    · constructor
      · apply mem_seasonality_foldl
        rw [processRow_self inv r c hc]
        exact Finset.mem_insert_self _ _
      · apply mem_data_sources_foldl
        rw [processRow_self inv r c hc]
        exact Finset.mem_insert_self _ _
    · exact ih (processRow inv r0) r c hmem2 hc

/-! ### Date-scan equivalence: the loop with breaks equals first-success -/

lemma mkDateYear_pos {y m d y0 : Nat} (h : mkDateYear y m d = some y0) : 1 ≤ y0 := by
  simp only [mkDateYear] at h
  split at h
  case isTrue hc =>
    cases h
    simp only [Bool.and_eq_true, decide_eq_true_eq] at hc
    exact hc.1.1
  case isFalse => cases h

lemma strptime_year_pos {s : String} {f : DateFmt} {y : Nat}
    (h : pyStrptimeYear s f = some y) : 1 ≤ y := by
  cases f with
  | ymd =>
    simp only [pyStrptimeYear] at h
    split at h
    · split at h
      · exact mkDateYear_pos h
      · cases h
    · cases h
  | mdy =>
    simp only [pyStrptimeYear] at h
    split at h
    · split at h
      · exact mkDateYear_pos h
      · cases h
    · cases h
  | dmy =>
    simp only [pyStrptimeYear] at h
    split at h
    · split at h
      · exact mkDateYear_pos h
      · cases h
    · cases h
  | yOnly =>
    simp only [pyStrptimeYear] at h
    split at h
    · split at h
      case isTrue hc =>
        cases h
        exact hc
      case isFalse => cases h
    · cases h

lemma scanFormats_eq (s : String) (fs : List DateFmt) :
    scanFormats s fs = fs.findSome? (pyStrptimeYear s) := by
  induction fs with
  | nil => rfl
  | cons f fs ih =>
    simp only [scanFormats, List.findSome?_cons]
    cases pyStrptimeYear s f with
    | some y => rfl
    | none => exact ih

lemma scanFormats_pos {s : String} {fs : List DateFmt} {y : Nat}
    (h : scanFormats s fs = some y) : 1 ≤ y := by
  induction fs with
  | nil => simp [scanFormats] at h
  | cons f fs ih =>
    simp only [scanFormats] at h
    cases hf : pyStrptimeYear s f with
    | some y0 =>
      rw [hf] at h
      cases h
      exact strptime_year_pos hf
    | none =>
      rw [hf] at h
      exact ih h

lemma scanDateFields_eq (cs : List Cell) :
    scanDateFields none cs = cs.findSome? fun c =>
      match c with
      | Cell.val ds => fmtOrder.findSome? (pyStrptimeYear ds)
      | _ => (none : Option Nat) := by
  induction cs with
  | nil => rfl
  | cons c cs ih =>
    cases c with
    | val s =>
      simp only [scanDateFields, List.findSome?_cons]
      cases hf : scanFormats s fmtOrder with
      | some y =>
        have hy : y ≠ 0 := Nat.one_le_iff_ne_zero.mp (scanFormats_pos hf)
        rw [scanFormats_eq] at hf
        rw [hf]
        simp [hy]
      | none =>
        rw [scanFormats_eq] at hf
        rw [hf]
        simpa using ih
    | nan =>
      simp only [scanDateFields, List.findSome?_cons]
      exact ih
    | absent =>
      simp only [scanDateFields, List.findSome?_cons]
      exact ih

lemma extractYear_eq_amended (r : Row) : extractYear r = extractYearAmended r := by
  simp only [extractYear, extractYearAmended]
  cases r.season_year with
  | val s =>
    cases hp : pyInt s with
    | some y => simp [hp]
    | none => simp [hp, scanDateFields_eq]
  | nan => rfl
  | absent => rfl

/-! ### Region-scan equivalence -/

lemma findAdminRegion_eq (cs : List Cell) :
    findAdminRegion cs = firstNonMissingNonEmpty cs := by
  induction cs with
  | nil => rfl
  | cons c cs ih =>
    simp only [firstNonMissingNonEmpty] at ih ⊢
    cases c with
    | val s =>
      simp only [findAdminRegion, List.findSome?_cons]
      split_ifs with h
      · simp [h]
      · simp only [h]
        simpa using ih
    | nan =>
      simp only [findAdminRegion, List.findSome?_cons]
      exact ih
    | absent =>
      simp only [findAdminRegion, List.findSome?_cons]
      exact ih

/-! ### Claim theorems -/

/-- C1: aggregating the same multiset of rows, in any permutation and under
any partition of the scan into files, yields an identical InventoryMap:
whenever two file lists carry permuted row multisets, the resulting
inventories agree at every (country_code, crop) key — all five sets and
all four booleans. -/
theorem inventory_order_independent (fs1 fs2 : List (Option (List Row)))
    (h : (joinRows fs1).Perm (joinRows fs2)) :
    (runFiles fs1).inventory = (runFiles fs2).inventory := by
  rw [runFiles, runFiles, runFilesFrom_inventory, runFilesFrom_inventory]
  exact foldl_processRow_perm h initState.inventory

/-- C1 witness: two concrete rows, swapped and split differently into
files, produce the same inventory. -/
theorem inventory_order_independent_witness :
    (runFiles [some [rowHarvested, rowProduced]]).inventory =
      (runFiles [some [rowProduced], some [rowHarvested]]).inventory :=
  inventory_order_independent [some [rowHarvested, rowProduced]]
    [some [rowProduced], some [rowHarvested]]
    (List.Perm.swap rowProduced rowHarvested [])

/-- C2: over the aggregation pass every aggregate only grows: starting
from any inventory state, folding any further list of rows keeps every
true boolean true and keeps every set-valued field a superset of what it
was (the AggLE order between the old and new aggregate at every key). -/
theorem aggregation_monotone (inv : InvMap) (rows : List Row) (c cr : String) :
    AggLE (inv c cr) ((rows.foldl processRow inv) c cr) :=
  foldl_processRow_le rows inv c cr

/-- C2 witness: an aggregate with area_harvested already true keeps it
true after one more row, and its years set is preserved as a subset. -/
theorem aggregation_monotone_witness :
    (([rowProduced].foldl processRow (runRows [rowHarvested])) "KE" "Maize").area_harvested
        = true ∧
      ((runRows [rowHarvested]) "KE" "Maize").years ⊆
        (([rowProduced].foldl processRow (runRows [rowHarvested])) "KE" "Maize").years := by
  constructor
  · exact (aggregation_monotone (runRows [rowHarvested]) [rowProduced] "KE"
      "Maize").2.2.2.2.2.2.1 (by decide)
  · exact (aggregation_monotone (runRows [rowHarvested]) [rowProduced] "KE" "Maize").1

/-- C3: for an aggregate with exactly k of its four indicator booleans
true, the projected completeness equals k × 25. -/
theorem completeness_formula (info : Agg) (k : Nat) (hk : countTrueFlags info = k) :
    summaryCompleteness info = (k : ℚ) * 25 := by
  subst hk
  cases hap : info.area_planted <;> cases hah : info.area_harvested <;>
    cases hqp : info.quantity_produced <;> cases hpr : info.production <;>
      simp [summaryCompleteness, countTrueFlags, boolVal, hap, hah, hqp, hpr] <;>
        norm_num

/-- C3 witness: the two-row Kenya/Maize aggregate has two true booleans
and completeness 50. -/
theorem completeness_formula_witness :
    summaryCompleteness ((runRows [rowHarvested, rowProduced]) "KE" "Maize") = (2 : ℚ) * 25 :=
  completeness_formula ((runRows [rowHarvested, rowProduced]) "KE" "Maize") 2 (by decide)

/-- C4 counterexample: a row whose season_year is NaN and whose start_date
is the perfectly parseable "2018-05-01".  The claim says the date-field
fallback runs when season_year is missing and would extract 2018; the
code never enters the fallback (it lives inside the except of the int
parse, which is guarded by a non-isna check), so the extracted year is
unknown. -/
theorem year_fallback_missing_counterexample :
    rowYearNan.season_year = Cell.nan ∧
    rowYearNan.start_date = Cell.val "2018-05-01" ∧
    pyStrptimeYear "2018-05-01" DateFmt.ymd = some 2018 ∧
    extractYear rowYearNan = none :=
  ⟨rfl, rfl, by decide, rfl⟩

/-- C4 (amended): the extracted year is season_year parsed as an integer;
the date-field scan (start_date, period_date, harvest_end_date in that
order, formats tried in the stated order, first success wins) runs only
when season_year is present but fails the integer parse; when season_year
is missing the year is unknown without consulting the date fields. -/
theorem year_extraction_follows_amended (r : Row) :
    extractYear r = extractYearAmended r ∧
    (r.season_year.isnaRaw = true → extractYear r = none) := by
  refine ⟨extractYear_eq_amended r, ?_⟩
  intro h
  cases hc : r.season_year with
  | val s =>
    rw [hc] at h
    simp [Cell.isnaRaw] at h
  | nan => simp [extractYear, hc]
  | absent => simp [extractYear, hc]

/-- C4 witness: the amended description agrees with the code on the
NaN-season_year row, whose year comes out unknown. -/
theorem year_extraction_follows_amended_witness :
    extractYear rowYearNan = extractYearAmended rowYearNan ∧
      extractYear rowYearNan = none :=
  ⟨(year_extraction_follows_amended rowYearNan).1,
    (year_extraction_follows_amended rowYearNan).2 (by decide)⟩

lemma classify_branch_eq (f : Flags) (grp : PyVal) :
    (if !(f.area_planted || f.area_harvested || f.quantity_produced || f.production) then
      match grp with
      | PyVal.vnan => f
      | PyVal.vstr g =>
        let gl := lowerData g
        { area_planted := f.area_planted || containsKw gl "area"
          area_harvested := f.area_harvested || containsKw gl "area"
          quantity_produced :=
            f.quantity_produced || containsKw gl "quantity" || containsKw gl "yield"
          production := f.production || containsKw gl "production" }
    else f) =
    (if f = noFlags then
      match grp with
      | PyVal.vnan => noFlags
      | PyVal.vstr g => flagsFromGroupText g
    else f) := by
  obtain ⟨a, b, c, d⟩ := f
  cases a <;> cases b <;> cases c <;> cases d <;> cases grp <;>
    simp [noFlags, flagsFromGroupText]

/-- C5: the row classifier computes exactly what the claim describes —
case-insensitive keyword rules on the indicator text first, the
indicator-group rules as fallback when the text is missing or yields all
false, and all-false when both are missing or inconclusive. -/
theorem classifier_matches_spec (ind grp : PyVal) :
    classifyIndicators ind grp = classifyRowSpec ind grp := by
  cases ind with
  | vnan =>
    cases grp with
    | vnan => rfl
    | vstr g => rfl
  | vstr s => exact classify_branch_eq (flagsFromIndicatorText s) grp

/-- C6 counterexample: a row with all admin levels missing and a
present-but-NaN geographic_unit_name.  The claim predicts the literal
"National"; the code passes the NaN through (`row.get` only substitutes
the default for an absent column and no isna check follows), so the
extracted region is NaN — which, being truthy, is even recorded in the
regions set. -/
theorem region_claim_counterexample :
    rowGeoNan.admin_4 = Cell.absent ∧ rowGeoNan.admin_0 = Cell.absent ∧
    rowGeoNan.geographic_unit_name = Cell.nan ∧
    extractRegion rowGeoNan = PyVal.vnan ∧
    extractRegionClaim rowGeoNan = PyVal.vstr "National" :=
  ⟨rfl, rfl, rfl, by decide, by decide⟩

/-- C6 (amended): the extracted region is the first present, non-missing,
non-empty value among admin_4..admin_0 in that order; if all admin levels
fail it is the geographic_unit_name cell's value whenever that column is
present — a NaN value yields a NaN region and an empty string an empty
region — and the literal "National" only when the column is absent. -/
theorem region_extraction_amended (r : Row) :
    extractRegion r = extractRegionAmended r := by
  simp only [extractRegion, extractRegionAmended, findAdminRegion_eq]
  cases firstNonMissingNonEmpty [r.admin_4, r.admin_3, r.admin_2, r.admin_1, r.admin_0] with
  | some s => rfl
  | none => cases r.geographic_unit_name <;> rfl

/-- C7: a row whose country_code is missing (absent column or NaN) is
skipped entirely: the whole run state — inventory, error counter and all
other counters — is unchanged, and the fold simply continues with the
remaining rows. -/
theorem missing_country_row_skipped (s : RunState) (r : Row) (rs : List Row)
    (h : r.country_code.isnaRaw = true) :
    processRowState s r = s ∧
    (r :: rs).foldl processRowState s = rs.foldl processRowState s := by
  have hinv : processRow s.inventory r = s.inventory := by
    cases hc : r.country_code with
    | val c =>
      rw [hc] at h
      simp [Cell.isnaRaw] at h
    | nan => simp [processRow, hc]
    | absent => simp [processRow, hc]
  have hs : processRowState s r = s := by
    simp only [processRowState, hinv]
  exact ⟨hs, by simp only [List.foldl_cons, hs]⟩

/-- C7 witness: the concrete row with no country code leaves the initial
state untouched. -/
theorem missing_country_row_skipped_witness :
    processRowState initState rowNoCountry = initState ∧
      (rowNoCountry :: ([] : List Row)).foldl processRowState initState =
        ([] : List Row).foldl processRowState initState :=
  missing_country_row_skipped initState rowNoCountry [] (by decide)

/-- C8 counterexample: after a run over exactly one unreadable file, the
error counter is 0, not the 1 the claim requires — the file-level except
only logs and increments nothing (the error counter counts only row-level
failures). -/
theorem file_error_counter_counterexample :
    (runFiles [(none : Option (List Row))]).error_count = 0 ∧
      (runFiles [(none : Option (List Row))]).error_count ≠ 1 :=
  ⟨rfl, by decide⟩

/-- C8 (amended): an unreadable file is skipped and the scan continues
with the remaining files, whose aggregation results are unaffected (the
state after consuming the failed file is identical to the state before
it); the error counter is NOT incremented for file-level failures — it
counts only per-row errors — and the failure is only logged. -/
theorem failed_file_skipped (s : RunState) (fs : List (Option (List Row))) :
    processFile s none = s ∧
      ((none : Option (List Row)) :: fs).foldl processFile s = fs.foldl processFile s :=
  ⟨rfl, rfl⟩

/-- C9: extraction is total — modelled as total Lean functions, every
fallback chain terminates in a default — and a row whose year cannot be
determined still contributes its season, source and (truthy) region to
the aggregate, leaving only the years set unchanged. -/
theorem extraction_total_row_contributes (inv : InvMap) (r : Row) (c : String)
    (hc : r.country_code = Cell.val c) (hy : extractYear r = none) :
    extractSeason r ∈ ((processRow inv r) c (extractCrop r)).seasonality ∧
    extractSource r ∈ ((processRow inv r) c (extractCrop r)).data_sources ∧
    ((extractRegion r).truthy = true →
      extractRegion r ∈ ((processRow inv r) c (extractCrop r)).regions) ∧
    ((processRow inv r) c (extractCrop r)).years = (inv c (extractCrop r)).years := by
  rw [processRow_self inv r c hc]
  refine ⟨Finset.mem_insert_self _ _, Finset.mem_insert_self _ _, ?_, ?_⟩
  · intro ht
    show extractRegion r ∈ regionsUpd (extractRegion r) (inv c (extractCrop r)).regions
    simp [regionsUpd, ht]
  · show yearsUpd (extractYear r) (inv c (extractCrop r)).years = _
    rw [hy]
    rfl

/-- C9 witness: the row with every year-related field absent contributes
its season and its (default "National") region. -/
theorem extraction_total_row_contributes_witness :
    extractYear rowNoYear = none ∧
      extractSeason rowNoYear ∈
        ((processRow emptyInv rowNoYear) "KE" (extractCrop rowNoYear)).seasonality ∧
      extractRegion rowNoYear ∈
        ((processRow emptyInv rowNoYear) "KE" (extractCrop rowNoYear)).regions := by
  refine ⟨rfl, ?_, ?_⟩
  · exact (extraction_total_row_contributes emptyInv rowNoYear "KE" rfl rfl).1
  · exact (extraction_total_row_contributes emptyInv rowNoYear "KE" rfl rfl).2.2.1 (by decide)

/-- C10: every (country_code, crop) entry of the final InventoryMap — that
is, every key some non-skipped row resolved to — has a non-empty
seasonality set and a non-empty data_sources set: each contributing row
unconditionally inserts its (defaulted) season and source. -/
theorem aggregate_sets_nonempty (rows : List Row) (r : Row) (c : String)
    (hmem : r ∈ rows) (hc : r.country_code = Cell.val c) :
    extractSeason r ∈ ((runRows rows) c (extractCrop r)).seasonality ∧
    extractSource r ∈ ((runRows rows) c (extractCrop r)).data_sources ∧
    ((runRows rows) c (extractCrop r)).seasonality.Nonempty ∧
    ((runRows rows) c (extractCrop r)).data_sources.Nonempty := by
  obtain ⟨h1, h2⟩ := mem_after_runRowsFrom rows emptyInv r c hmem hc
  exact ⟨h1, h2, ⟨_, h1⟩, ⟨_, h2⟩⟩

/-- C10 witness: the two-row Kenya/Maize run has the harvested row's
season in the aggregate and a non-empty data_sources set. -/
theorem aggregate_sets_nonempty_witness :
    extractSeason rowHarvested ∈
      ((runRows [rowHarvested, rowProduced]) "KE" (extractCrop rowHarvested)).seasonality ∧
      ((runRows [rowHarvested, rowProduced]) "KE" (extractCrop rowHarvested)).data_sources.Nonempty := by
  constructor
  · exact (aggregate_sets_nonempty [rowHarvested, rowProduced] rowHarvested "KE"
      (by decide) rfl).1
  · exact (aggregate_sets_nonempty [rowHarvested, rowProduced] rowHarvested "KE"
      (by decide) rfl).2.2.2
